import Mathlib

/-!
Verification of the MyFlightRadar24 → Air Travel Log converter.

The Python sources (mfr24-atl-converter.py, airlines.py, airports.py) are
shallowly embedded below.  Pure functions of the script become Lean
functions on `String`/`List Char`; dictionary rows become association
lists or accessor functions `String → Option String`; fallible code
(KeyError, AttributeError on a failed regex match, strptime errors)
returns `Option`.  The external pieces — the IANA timezone database used
through `zoneinfo` and the floating-point `great_circle_calculator`
library — are parameters of the embedding: the timezone database is an
oracle assigning offset rules to zone names, and the great-circle
library is an abstract structure instantiated with a real-valued
haversine formula modelled from the specification.
-/

namespace MfrAtl

/-- Partial indexing into a list, used by the regex model: `nth l n` is
the element at position `n` when it exists. -/
def nth {α : Type} : List α → Nat → Option α
  | [], _ => none
  | a :: _, 0 => some a
  | _ :: l, n + 1 => nth l n

theorem nth_len_le {α : Type} (l : List α) : ∀ n, l.length ≤ n → nth l n = none := by
  induction l with
  | nil => intro n _; rfl
  | cons a l ih =>
    intro n h
    cases n with
    | zero => simp at h
    | succ n => exact ih n (by simpa using h)

theorem nth_append_right {α : Type} (l₁ l₂ : List α) (n : Nat) :
    nth (l₁ ++ l₂) (l₁.length + n) = nth l₂ n := by
  induction l₁ with
  | nil => simp
  | cons a l ih =>
    simp only [List.cons_append, List.length_cons]
    rw [show l.length + 1 + n = (l.length + n) + 1 from by omega]
    exact ih

theorem nth_mem {α : Type} {a : α} : ∀ {l : List α} {n : Nat}, nth l n = some a → a ∈ l := by
  intro l
  induction l with
  | nil => intro n h; simp [nth] at h
  | cons b l ih =>
    intro n h
    cases n with
    | zero =>
      injection h with h
      exact h ▸ List.mem_cons_self b l
    | succ n => exact List.mem_cons_of_mem _ (ih h)

theorem take_len_append {α : Type} (l₁ l₂ : List α) : (l₁ ++ l₂).take l₁.length = l₁ := by
  induction l₁ with
  | nil => rfl
  | cons a l ih => simpa using ih

theorem drop_len_append {α : Type} (l₁ l₂ : List α) : (l₁ ++ l₂).drop l₁.length = l₂ := by
  induction l₁ with
  | nil => rfl
  | cons a l ih => simpa using ih

/-!
Model of `CODE_REGEX = re.compile('.+\((.+)\)')` and `CODE_REGEX.search`.

Python's `re.search` finds the leftmost starting position admitting a
match and, at that position, resolves each `.+` greedily with
backtracking: the first `.+` consumes as many characters as possible
(`.` matches anything except a newline) before a literal `(`, and the
captured `(.+)` consumes as many characters as possible before a
literal `)`.  `runLen` is the length of the maximal newline-free run at
the head of the text; `capAux`/`headAux` try the candidate lengths of
the two `.+` pieces from longest to shortest, exactly as the
backtracking engine does.
-/

/-- Length of the maximal prefix without a newline: the characters one
`.+` item can consume from the front of the text. -/
def runLen : List Char → Nat
  | [] => 0
  | c :: cs => if c = '\n' then 0 else runLen cs + 1

theorem runLen_eq_length (l : List Char) (h : ∀ c ∈ l, c ≠ '\n') : runLen l = l.length := by
  induction l with
  | nil => rfl
  | cons c cs ih =>
    simp only [runLen, List.length_cons]
    rw [if_neg (h c (List.mem_cons_self c cs))]
    rw [ih (fun x hx => h x (List.mem_cons_of_mem c hx))]

/-- Backtracking for the captured `(.+)`: given the text after the open
parenthesis, try capture lengths from `m` down to 1, succeeding at the
first length whose following character is a close parenthesis (the
greedy capture thus ends at the last `)` of the newline-free run). -/
def capAux (t : List Char) : Nat → Option Nat
  | 0 => none
  | j + 1 => if nth t (j + 1) = some ')' then some (j + 1) else capAux t j

/-- The group captured by `(.+)\)` at the beginning of `t`, if any. -/
def capture (t : List Char) : Option (List Char) :=
  (capAux t (runLen t)).map fun j => t.take j

/-- Backtracking for the leading `.+`: try consumed lengths from `m`
down to 1; at length `k` the character at index `k` must be `(` and the
remainder must admit a captured group. -/
def headAux (t : List Char) : Nat → Option (List Char)
  | 0 => none
  | k + 1 =>
    if nth t (k + 1) = some '(' then
      match capture (t.drop (k + 2)) with
      | some g => some g
      | none => headAux t k
    else headAux t k

/-- Model of `CODE_REGEX.search(name)`, returning `group(1)`: try each
start position from the left, resolving the pattern greedily there. -/
def reSearch : List Char → Option (List Char)
  | [] => none
  | c :: cs =>
    match headAux (c :: cs) (runLen (c :: cs)) with
    | some g => some g
    | none => reSearch cs

theorem reSearch_cons_of_head (c : Char) (cs g : List Char)
    (h : headAux (c :: cs) (runLen (c :: cs)) = some g) :
    reSearch (c :: cs) = some g := by
  simp only [reSearch]
  rw [h]

/-- Model of `extract_code` (mfr24-atl-converter.py lines 38-46):
`CODE_REGEX.search(name).group(1).split('/')[0]`; `None.group` raises,
hence `Option`. -/
def extract_code (name : String) : Option String :=
  (reSearch name.data).map fun g => ⟨g.takeWhile (fun c => c != '/')⟩

/-- Model of `extract_icao` (mfr24-atl-converter.py lines 49-57):
`CODE_REGEX.search(name).group(1).split('/')[-1]`. -/
def extract_icao (name : String) : Option String :=
  (reSearch name.data).map fun g => ⟨(g.reverse.takeWhile (fun c => c != '/')).reverse⟩

theorem capture_close (g : List Char) (hg : g ≠ []) (hgnl : ∀ c ∈ g, c ≠ '\n') :
    capture ((g ++ [')'] : List Char)) = some g := by
  have hall : ∀ c ∈ (g ++ [')'] : List Char), c ≠ '\n' := by
    intro c hc
    rcases List.mem_append.mp hc with h | h
    · exact hgnl c h
    · simp only [List.mem_singleton] at h; subst h; decide
  have hrl : runLen (g ++ [')']) = g.length + 1 := by
    rw [runLen_eq_length _ hall]; simp
  have h1 : nth (g ++ [')'] : List Char) (g.length + 1) = none :=
    nth_len_le _ _ (by simp)
  have h2 : nth (g ++ [')'] : List Char) g.length = some ')' := by
    have := nth_append_right g [')'] 0
    simpa using this
  cases g with
  | nil => exact absurd rfl hg
  | cons a as =>
    unfold capture
    rw [hrl]
    have e1 : capAux ((a :: as) ++ [')']) ((a :: as).length + 1)
        = capAux ((a :: as) ++ [')']) (as.length + 1) := by
      have : (a :: as).length + 1 = (as.length + 1) + 1 := by simp
      rw [this]
      simp only [capAux]
      rw [if_neg]
      rw [show as.length + 1 + 1 = (a :: as).length + 1 from by simp]
      rw [h1]
      simp
    rw [e1]
    have e2 : capAux ((a :: as) ++ [')']) (as.length + 1) = some (as.length + 1) := by
      simp only [capAux]
      rw [if_pos]
      rw [show as.length + 1 = (a :: as).length from by simp]
      exact h2
    rw [e2]
    simp only [Option.map_some']
    rw [show as.length + 1 = (a :: as).length from by simp]
    rw [take_len_append]

theorem headAux_find (t : List Char) (p : Nat) (g : List Char)
    (hp1 : 1 ≤ p) (hp : nth t p = some '(')
    (hcap : capture (t.drop (p + 1)) = some g)
    (habove : ∀ k, p < k → nth t k ≠ some '(') :
    ∀ m, p ≤ m → headAux t m = some g := by
  intro m
  induction m with
  | zero => intro h; omega
  | succ k ih =>
    intro hpm
    by_cases hk : p = k + 1
    · subst hk
      simp only [headAux]
      rw [if_pos hp]
      rw [show k + 1 + 1 = (k + 1) + 1 from rfl] at hcap
      rw [hcap]
    · have hlt : p < k + 1 := lt_of_le_of_ne hpm hk
      simp only [headAux]
      rw [if_neg (habove _ hlt)]
      exact ih (by omega)

theorem headAux_none (t : List Char) (h : ∀ k, nth t (k + 1) ≠ some '(') :
    ∀ m, headAux t m = none := by
  intro m
  induction m with
  | zero => rfl
  | succ k ih =>
    simp only [headAux]
    rw [if_neg (h k)]
    exact ih

theorem reSearch_none (t : List Char) (h : ∀ k, nth t (k + 1) ≠ some '(') :
    reSearch t = none := by
  induction t with
  | nil => rfl
  | cons c cs ih =>
    have h' : ∀ k, nth cs (k + 1) ≠ some '(' := by
      intro k
      have := h (k + 1)
      simpa [nth] using this
    simp only [reSearch]
    rw [headAux_none _ h _]
    exact ih h'

/-- The central fact about the greedy search: on `X ++ "(" ++ g ++ ")"`
where the parenthesis after `X` is the last open parenthesis and `g` is
a nonempty, newline-free group, the captured group is exactly `g`. -/
theorem reSearch_concat (X g : List Char) (hX : X ≠ [])
    (hXnl : ∀ c ∈ X, c ≠ '\n') (hgnl : ∀ c ∈ g, c ≠ '\n')
    (hgp : '(' ∉ g) (hg : g ≠ []) :
    reSearch (X ++ ('(' :: (g ++ [')']))) = some g := by
  have htnl : ∀ c ∈ (X ++ ('(' :: (g ++ [')'])) : List Char), c ≠ '\n' := by
    intro c hc
    rcases List.mem_append.mp hc with h | h
    · exact hXnl c h
    · rcases List.mem_cons.mp h with h | h
      · subst h; decide
      · rcases List.mem_append.mp h with h | h
        · exact hgnl c h
        · simp only [List.mem_singleton] at h; subst h; decide
  have hlen : (X ++ ('(' :: (g ++ [')'])) : List Char).length = X.length + g.length + 2 := by
    simp; omega
  have hp : nth (X ++ ('(' :: (g ++ [')']))) X.length = some '(' := by
    have := nth_append_right X ('(' :: (g ++ [')'])) 0
    simpa using this
  have hdrop : (X ++ ('(' :: (g ++ [')'])) : List Char).drop (X.length + 1) = g ++ [')'] := by
    have : (X ++ ('(' :: (g ++ [')'])) : List Char) = (X ++ ['(']) ++ (g ++ [')']) := by simp
    rw [this, show X.length + 1 = (X ++ ['(']).length from by simp]
    exact drop_len_append _ _
  have hcap : capture ((X ++ ('(' :: (g ++ [')']))).drop (X.length + 1)) = some g := by
    rw [hdrop]; exact capture_close g hg hgnl
  have habove : ∀ k, X.length < k → nth (X ++ ('(' :: (g ++ [')']))) k ≠ some '(' := by
    intro k hk heq
    obtain ⟨j, rfl⟩ : ∃ j, k = X.length + (j + 1) := ⟨k - X.length - 1, by omega⟩
    rw [nth_append_right] at heq
    have hmem : '(' ∈ (g ++ [')'] : List Char) := nth_mem (by simpa [nth] using heq)
    rcases List.mem_append.mp hmem with h | h
    · exact hgp h
    · simp at h
  have hXpos : 1 ≤ X.length := by
    cases X with
    | nil => exact absurd rfl hX
    | cons a l => simp
  have hrun : runLen (X ++ ('(' :: (g ++ [')']))) = X.length + g.length + 2 := by
    rw [runLen_eq_length _ htnl, hlen]
  have hmain : headAux (X ++ ('(' :: (g ++ [')'])))
      (runLen (X ++ ('(' :: (g ++ [')'])))) = some g := by
    apply headAux_find _ X.length g hXpos hp hcap habove
    rw [hrun]; omega
  cases hXc : X with
  | nil => exact absurd hXc hX
  | cons a l =>
    subst hXc
    exact reSearch_cons_of_head a (l ++ ('(' :: (g ++ [')']))) g hmain

theorem takeWhile_slash (A B : List Char) (hA : ∀ c ∈ A, c ≠ '/') :
    (A ++ ('/' :: B)).takeWhile (fun c => c != '/') = A := by
  induction A with
  | nil => simp [List.takeWhile]
  | cons a as ih =>
    have ha : (a != '/') = true := by
      simpa using hA a (List.mem_cons_self a as)
    simp only [List.cons_append, List.takeWhile_cons, ha, if_true]
    rw [ih (fun c hc => hA c (List.mem_cons_of_mem a hc))]

theorem takeWhile_noslash (A : List Char) (hA : ∀ c ∈ A, c ≠ '/') :
    A.takeWhile (fun c => c != '/') = A := by
  induction A with
  | nil => rfl
  | cons a as ih =>
    have ha : (a != '/') = true := by
      simpa using hA a (List.mem_cons_self a as)
    simp only [List.takeWhile_cons, ha, if_true]
    rw [ih (fun c hc => hA c (List.mem_cons_of_mem a hc))]

theorem afterLastSlash_split (A B : List Char) (hB : ∀ c ∈ B, c ≠ '/') :
    ((A ++ ('/' :: B)).reverse.takeWhile (fun c => c != '/')).reverse = B := by
  have : (A ++ ('/' :: B) : List Char).reverse = B.reverse ++ ('/' :: A.reverse) := by
    simp
  rw [this, takeWhile_slash B.reverse A.reverse
    (fun c hc => hB c (List.mem_reverse.mp hc))]
  exact List.reverse_reverse B

theorem afterLastSlash_noslash (B : List Char) (hB : ∀ c ∈ B, c ≠ '/') :
    (B.reverse.takeWhile (fun c => c != '/')).reverse = B := by
  rw [takeWhile_noslash B.reverse (fun c hc => hB c (List.mem_reverse.mp hc))]
  exact List.reverse_reverse B

/-- C3: for a composite name of the form `X (AAA/BBBB)` — a nonempty
prefix `X` followed by exactly one parenthesized group whose content is
`AAA/BBBB` with slash-free halves — `extract_code` returns `AAA` (the
part before the first slash of the group) and `extract_icao` returns
`BBBB` (the part after the last slash); for `X (BBBB)` with no slash,
both return `BBBB`. -/
theorem C3_extract_code_icao_composite (X A B : List Char) (hX : X ≠ [])
    (hXc : ∀ c ∈ X, c ≠ '\n' ∧ c ≠ '(' ∧ c ≠ ')')
    (hA : A ≠ []) (hAc : ∀ c ∈ A, c ≠ '\n' ∧ c ≠ '(' ∧ c ≠ ')' ∧ c ≠ '/')
    (hB : B ≠ []) (hBc : ∀ c ∈ B, c ≠ '\n' ∧ c ≠ '(' ∧ c ≠ ')' ∧ c ≠ '/') :
    (extract_code ⟨X ++ ('(' :: ((A ++ ('/' :: B)) ++ [')']))⟩ = some ⟨A⟩ ∧
     extract_icao ⟨X ++ ('(' :: ((A ++ ('/' :: B)) ++ [')']))⟩ = some ⟨B⟩) ∧
    (extract_code ⟨X ++ ('(' :: (B ++ [')']))⟩ = some ⟨B⟩ ∧
     extract_icao ⟨X ++ ('(' :: (B ++ [')']))⟩ = some ⟨B⟩) := by
  have hXnl : ∀ c ∈ X, c ≠ '\n' := fun c hc => (hXc c hc).1
  have hinner : ∀ c ∈ (A ++ ('/' :: B) : List Char), c ≠ '\n' ∧ c ≠ '(' := by
    intro c hc
    rcases List.mem_append.mp hc with h | h
    · exact ⟨(hAc c h).1, (hAc c h).2.1⟩
    · rcases List.mem_cons.mp h with h | h
      · subst h; exact ⟨by decide, by decide⟩
      · exact ⟨(hBc c h).1, (hBc c h).2.1⟩
  have h1 : reSearch (X ++ ('(' :: ((A ++ ('/' :: B)) ++ [')']))) = some (A ++ ('/' :: B)) :=
    reSearch_concat X (A ++ ('/' :: B)) hX hXnl
      (fun c hc => (hinner c hc).1)
      (fun hmem => (hinner '(' hmem).2 rfl)
      (by cases A <;> simp)
  have h2 : reSearch (X ++ ('(' :: (B ++ [')']))) = some B :=
    reSearch_concat X B hX hXnl
      (fun c hc => (hBc c hc).1)
      (fun hmem => (hBc '(' hmem).2.1 rfl)
      hB
  refine ⟨⟨?_, ?_⟩, ?_, ?_⟩
  · show (reSearch (X ++ ('(' :: ((A ++ ('/' :: B)) ++ [')'])))).map _ = _
    rw [h1]
    simp only [Option.map_some']
    rw [takeWhile_slash A B (fun c hc => (hAc c hc).2.2.2)]
  · show (reSearch (X ++ ('(' :: ((A ++ ('/' :: B)) ++ [')'])))).map _ = _
    rw [h1]
    simp only [Option.map_some']
    rw [afterLastSlash_split A B (fun c hc => (hBc c hc).2.2.2)]
  · show (reSearch (X ++ ('(' :: (B ++ [')'])))).map _ = _
    rw [h2]
    simp only [Option.map_some']
    rw [takeWhile_noslash B (fun c hc => (hBc c hc).2.2.2)]
  · show (reSearch (X ++ ('(' :: (B ++ [')'])))).map _ = _
    rw [h2]
    simp only [Option.map_some']
    rw [afterLastSlash_noslash B (fun c hc => (hBc c hc).2.2.2)]

theorem C3_witness :
    (extract_code ⟨("New York ").data ++
        ('(' :: ((("JFK").data ++ ('/' :: ("KJFK").data)) ++ [')']))⟩ = some ⟨("JFK").data⟩ ∧
     extract_icao ⟨("New York ").data ++
        ('(' :: ((("JFK").data ++ ('/' :: ("KJFK").data)) ++ [')']))⟩ = some ⟨("KJFK").data⟩) ∧
    (extract_code ⟨("New York ").data ++
        ('(' :: (("KJFK").data ++ [')']))⟩ = some ⟨("KJFK").data⟩ ∧
     extract_icao ⟨("New York ").data ++
        ('(' :: (("KJFK").data ++ [')']))⟩ = some ⟨("KJFK").data⟩) :=
  C3_extract_code_icao_composite ("New York ").data ("JFK").data ("KJFK").data
    (by decide) (by decide) (by decide) (by decide) (by decide) (by decide)

/-- C9: when the only parenthesized group starts at the very first
character of the name — no character precedes the open parenthesis —
the pattern `.+\((.+)\)` cannot match (the leading `.+` needs at least
one character), so both `extract_code` and `extract_icao` fail. -/
theorem C9_leading_paren_fails (inner : List Char) (h : '(' ∉ inner) :
    extract_code ⟨'(' :: (inner ++ [')'])⟩ = none ∧
    extract_icao ⟨'(' :: (inner ++ [')'])⟩ = none := by
  have key : reSearch ('(' :: (inner ++ [')'])) = none := by
    apply reSearch_none
    intro k heq
    have hmem : '(' ∈ (inner ++ [')'] : List Char) := nth_mem (by simpa [nth] using heq)
    rcases List.mem_append.mp hmem with hm | hm
    · exact h hm
    · simp at hm
  constructor
  · show (reSearch ('(' :: (inner ++ [')']))).map _ = none
    rw [key]; rfl
  · show (reSearch ('(' :: (inner ++ [')']))).map _ = none
    rw [key]; rfl

theorem C9_witness :
    extract_code ⟨'(' :: ((("AAA/BBBB").data) ++ [')'])⟩ = none ∧
    extract_icao ⟨'(' :: ((("AAA/BBBB").data) ++ [')'])⟩ = none :=
  C9_leading_paren_fails ("AAA/BBBB").data (by decide)

/-- C10: when the name contains more than one parenthesized group, as
in `A (g1) B (Y/Z)`, the greedy leading `.+` of the pattern consumes up
to the last open parenthesis that still admits a match, so the code is
taken from the last (rightmost) group: `extract_code` yields `Y` and
`extract_icao` yields `Z`, not the content of the first group. -/
theorem C10_last_group_wins (A g1 B Y Z : List Char)
    (hAnl : ∀ c ∈ A, c ≠ '\n') (hg1nl : ∀ c ∈ g1, c ≠ '\n') (hBnl : ∀ c ∈ B, c ≠ '\n')
    (hYc : ∀ c ∈ Y, c ≠ '\n' ∧ c ≠ '(' ∧ c ≠ '/')
    (hZc : ∀ c ∈ Z, c ≠ '\n' ∧ c ≠ '(' ∧ c ≠ '/') :
    extract_code ⟨(A ++ ('(' :: (g1 ++ (')' :: B)))) ++
        ('(' :: ((Y ++ ('/' :: Z)) ++ [')']))⟩ = some ⟨Y⟩ ∧
    extract_icao ⟨(A ++ ('(' :: (g1 ++ (')' :: B)))) ++
        ('(' :: ((Y ++ ('/' :: Z)) ++ [')']))⟩ = some ⟨Z⟩ := by
  have hXne : (A ++ ('(' :: (g1 ++ (')' :: B))) : List Char) ≠ [] := by
    cases A <;> simp
  have hXnl : ∀ c ∈ (A ++ ('(' :: (g1 ++ (')' :: B))) : List Char), c ≠ '\n' := by
    intro c hc
    rcases List.mem_append.mp hc with hm | hm
    · exact hAnl c hm
    · rcases List.mem_cons.mp hm with hm | hm
      · subst hm; decide
      · rcases List.mem_append.mp hm with hm | hm
        · exact hg1nl c hm
        · rcases List.mem_cons.mp hm with hm | hm
          · subst hm; decide
          · exact hBnl c hm
  have hgnl : ∀ c ∈ (Y ++ ('/' :: Z) : List Char), c ≠ '\n' := by
    intro c hc
    rcases List.mem_append.mp hc with hm | hm
    · exact (hYc c hm).1
    · rcases List.mem_cons.mp hm with hm | hm
      · subst hm; decide
      · exact (hZc c hm).1
  have hgp : '(' ∉ (Y ++ ('/' :: Z) : List Char) := by
    intro hmem
    rcases List.mem_append.mp hmem with hm | hm
    · exact (hYc '(' hm).2.1 rfl
    · rcases List.mem_cons.mp hm with hm | hm
      · exact absurd hm (by decide)
      · exact (hZc '(' hm).2.1 rfl
  have h1 : reSearch ((A ++ ('(' :: (g1 ++ (')' :: B)))) ++
      ('(' :: ((Y ++ ('/' :: Z)) ++ [')']))) = some (Y ++ ('/' :: Z)) :=
    reSearch_concat _ _ hXne hXnl hgnl hgp (by cases Y <;> simp)
  constructor
  · show (reSearch ((A ++ ('(' :: (g1 ++ (')' :: B)))) ++
        ('(' :: ((Y ++ ('/' :: Z)) ++ [')'])))).map _ = _
    rw [h1]
    simp only [Option.map_some']
    rw [takeWhile_slash Y Z (fun c hc => (hYc c hc).2.2)]
  · show (reSearch ((A ++ ('(' :: (g1 ++ (')' :: B)))) ++
        ('(' :: ((Y ++ ('/' :: Z)) ++ [')'])))).map _ = _
    rw [h1]
    simp only [Option.map_some']
    rw [afterLastSlash_split Y Z (fun c hc => (hZc c hc).2.2)]

theorem C10_witness :
    extract_code ⟨(("A ").data ++ ('(' :: (("X").data ++ (')' :: (" B ").data)))) ++
        ('(' :: ((("Y").data ++ ('/' :: ("Z").data)) ++ [')']))⟩ = some ⟨("Y").data⟩ ∧
    extract_icao ⟨(("A ").data ++ ('(' :: (("X").data ++ (')' :: (" B ").data)))) ++
        ('(' :: ((("Y").data ++ ('/' :: ("Z").data)) ++ [')']))⟩ = some ⟨("Z").data⟩ :=
  C10_last_group_wins ("A ").data ("X").data (" B ").data ("Y").data ("Z").data
    (by decide) (by decide) (by decide) (by decide) (by decide)

/-!
Seat-type and seat-class enumerations (mfr24-atl-converter.py lines
113-139).  The Python functions index a literal dict and raise
`KeyError` on any other key, hence `Option`.
-/

/-- Model of `format_seat_type`. -/
def format_seat_type (seattype : String) : Option (String × String) :=
  if seattype = "0" then some ("Unknown", "U")
  else if seattype = "1" then some ("Window", "W")
  else if seattype = "2" then some ("Middle", "M")
  else if seattype = "3" then some ("Aisle", "A")
  else none

/-- Model of `format_seat_class`. -/
def format_seat_class (seatclass : String) : Option (String × String) :=
  if seatclass = "1" then some ("Economy", "Y")
  else if seatclass = "2" then some ("Business", "J")
  else if seatclass = "3" then some ("First", "F")
  else if seatclass = "4" then some ("Premium Economy", "W")
  else if seatclass = "5" then some ("Private", "P")
  else none

/-- C5: `format_seat_type` maps exactly the four inputs 0-3 to
(Unknown,U), (Window,W), (Middle,M), (Aisle,A) and fails on every other
input; `format_seat_class` maps exactly 1-5 to (Economy,Y),
(Business,J), (First,F), (Premium Economy,W), (Private,P) and fails on
every other input. -/
theorem C5_seat_enumerations :
    (format_seat_type "0" = some ("Unknown", "U") ∧
     format_seat_type "1" = some ("Window", "W") ∧
     format_seat_type "2" = some ("Middle", "M") ∧
     format_seat_type "3" = some ("Aisle", "A")) ∧
    (∀ s : String, s ∉ (["0", "1", "2", "3"] : List String) → format_seat_type s = none) ∧
    (format_seat_class "1" = some ("Economy", "Y") ∧
     format_seat_class "2" = some ("Business", "J") ∧
     format_seat_class "3" = some ("First", "F") ∧
     format_seat_class "4" = some ("Premium Economy", "W") ∧
     format_seat_class "5" = some ("Private", "P")) ∧
    (∀ s : String, s ∉ (["1", "2", "3", "4", "5"] : List String) → format_seat_class s = none) := by
  refine ⟨⟨rfl, rfl, rfl, rfl⟩, ?_, ⟨rfl, rfl, rfl, rfl, rfl⟩, ?_⟩
  · intro s hs
    simp only [List.mem_cons, List.not_mem_nil, or_false, not_or] at hs
    obtain ⟨h0, h1, h2, h3⟩ := hs
    simp [format_seat_type, h0, h1, h2, h3]
  · intro s hs
    simp only [List.mem_cons, List.not_mem_nil, or_false, not_or] at hs
    obtain ⟨h1, h2, h3, h4, h5⟩ := hs
    simp [format_seat_class, h1, h2, h3, h4, h5]

theorem C5_witness :
    format_seat_type "7" = none ∧ format_seat_class "0" = none :=
  ⟨C5_seat_enumerations.2.1 "7" (by decide),
   C5_seat_enumerations.2.2.2 "0" (by decide)⟩

/-!
The airline reference store (airlines.py).  A parsed row of
airlines.dat carries the eight positional fields of `_FIELDNAMES`; the
store built by `read` is a mapping from code to record: every row is
inserted under its ICAO code and, when its IATA field is nonempty, also
under its IATA code, later rows overwriting earlier ones.  `get`
indexes the mapping and raises `KeyError` for an unknown code, hence
`Option`.
-/

structure AirlineRec where
  id : String
  name : String
  alias' : String
  iata : String
  icao : String
  callsign : String
  country : String
  active : String
  deriving DecidableEq

/-- A loaded reference table: Python dict keyed by code strings. -/
abbrev Store (ρ : Type) := String → Option ρ

/-- A single Python dict assignment `data[k] = v`. -/
def storeInsert {ρ : Type} (k : String) (v : ρ) (st : Store ρ) : Store ρ :=
  fun x => if x = k then some v else st x

namespace airlines

/-- The loop body of `airlines.read` (airlines.py lines 40-43), folded
over the parsed rows of the data file from an initial mapping. -/
def readFrom (st : Store AirlineRec) : List AirlineRec → Store AirlineRec
  | [] => st
  | r :: rs =>
    readFrom (storeInsert r.icao r (if r.iata = "" then st else storeInsert r.iata r st)) rs

/-- Model of `airlines.read`: build the mapping from the parsed rows of
the data file, starting from an empty dict. -/
def read (rows : List AirlineRec) : Store AirlineRec :=
  readFrom (fun _ => none) rows

/-- Model of `airlines.get`: index the mapping. -/
def get (st : Store AirlineRec) (code : String) : Option AirlineRec :=
  st code

theorem readFrom_no_touch (k : String) :
    ∀ (post : List AirlineRec) (st : Store AirlineRec),
    (∀ r' ∈ post, r'.icao ≠ k ∧ (r'.iata ≠ "" → r'.iata ≠ k)) →
    readFrom st post k = st k := by
  intro post
  induction post with
  | nil => intro st _; rfl
  | cons r rs ih =>
    intro st h
    simp only [readFrom]
    rw [ih _ (fun r' hr' => h r' (List.mem_cons_of_mem r hr'))]
    have h1 := h r (List.mem_cons_self r rs)
    by_cases hi : r.iata = ""
    · rw [if_pos hi]
      simp only [storeInsert]
      rw [if_neg (fun he => h1.1 he.symm)]
    · rw [if_neg hi]
      simp only [storeInsert]
      rw [if_neg (fun he => h1.1 he.symm), if_neg (fun he => (h1.2 hi) he.symm)]

theorem readFrom_append (l1 l2 : List AirlineRec) :
    ∀ st, readFrom st (l1 ++ l2) = readFrom (readFrom st l1) l2 := by
  induction l1 with
  | nil => intro st; rfl
  | cons r rs ih => intro st; exact ih _

end airlines

/-- C4: in a store loaded from rows containing a record with a nonempty
IATA code, with no later row reusing either of its keys, `get` under
the IATA code and `get` under the ICAO code both return that identical
record; and a row with an empty IATA field is keyed under its ICAO code
only. -/
theorem C4_airline_store_keys (pre post : List AirlineRec) (r : AirlineRec)
    (hiata : r.iata ≠ "")
    (hpost : ∀ r' ∈ post,
      (r'.icao ≠ r.iata ∧ r'.icao ≠ r.icao) ∧
      (r'.iata ≠ "" → r'.iata ≠ r.iata ∧ r'.iata ≠ r.icao)) :
    (airlines.get (airlines.read (pre ++ r :: post)) r.iata = some r ∧
     airlines.get (airlines.read (pre ++ r :: post)) r.icao = some r) ∧
    (∀ q : AirlineRec, q.iata = "" →
      airlines.get (airlines.read [q]) q.icao = some q ∧
      ∀ k, k ≠ q.icao → airlines.get (airlines.read [q]) k = none) := by
  constructor
  · have hsplit : airlines.read (pre ++ r :: post) =
        airlines.readFrom (airlines.readFrom (fun _ => none) pre) (r :: post) := by
      unfold airlines.read
      rw [airlines.readFrom_append]
    set st1 := airlines.readFrom (fun _ => none) pre with hst1
    have hstep : airlines.readFrom st1 (r :: post) =
        airlines.readFrom (storeInsert r.icao r (storeInsert r.iata r st1)) post := by
      simp only [airlines.readFrom]
      rw [if_neg hiata]
    constructor
    · rw [airlines.get, hsplit, hstep,
        airlines.readFrom_no_touch r.iata post _
          (fun r' hr' => ⟨(hpost r' hr').1.1, fun hne => ((hpost r' hr').2 hne).1⟩)]
      simp only [storeInsert]
      by_cases h : r.iata = r.icao
      · rw [if_pos h]
      · rw [if_neg h]
        simp
    · rw [airlines.get, hsplit, hstep,
        airlines.readFrom_no_touch r.icao post _
          (fun r' hr' => ⟨(hpost r' hr').1.2, fun hne => ((hpost r' hr').2 hne).2⟩)]
      simp [storeInsert]
  · intro q hq
    have hread : airlines.read [q] = storeInsert q.icao q (fun _ => none) := by
      unfold airlines.read airlines.readFrom
      rw [if_pos hq]
      rfl
    constructor
    · rw [airlines.get, hread]
      simp [storeInsert]
    · intro k hk
      rw [airlines.get, hread]
      simp only [storeInsert]
      rw [if_neg hk]

/-- Example reference rows used by the concrete witnesses. -/
def exAlpha : AirlineRec := ⟨"1", "Alpha Air", "", "AA", "BBBB", "ALPHA", "US", "Y"⟩

def exTri : AirlineRec := ⟨"2", "Tri Air", "", "", "ABC", "TRI", "US", "Y"⟩

def exDuo : AirlineRec := ⟨"3", "Duo Air", "", "AB", "ABAB", "DUO", "US", "Y"⟩

theorem C4_witness :
    (airlines.get (airlines.read ([exTri] ++ exAlpha :: [exDuo])) "AA" = some exAlpha ∧
     airlines.get (airlines.read ([exTri] ++ exAlpha :: [exDuo])) "BBBB" = some exAlpha) ∧
    (airlines.get (airlines.read [exTri]) "ABC" = some exTri ∧
     airlines.get (airlines.read [exTri]) "AA" = none) := by
  have h := C4_airline_store_keys [exTri] [exDuo] exAlpha (by decide) (by decide)
  exact ⟨h.1, (h.2 exTri rfl).1, (h.2 exTri rfl).2 "AA" (by decide)⟩

/-!
Airline extraction from the flight number (mfr24-atl-converter.py
lines 86-98).
-/

/-- Model of Python's `str.isalpha` on a character slice: true exactly
when the slice is nonempty and every character is alphabetic (the
sources only ever see ASCII flight numbers, so `Char.isAlpha` is the
right notion). -/
def pyIsAlpha (l : List Char) : Bool :=
  !l.isEmpty && l.all Char.isAlpha

/-- Model of `extract_airline`: `flightnum[:3]` is the slice of the
leading three characters (fewer when the string is shorter); when that
slice is alphabetic the code is that slice, otherwise the code is
`flightnum[:2]`; `airlines.get` then resolves the display name, raising
on an unknown code. -/
def extract_airline (als : Store AirlineRec) (flightnum : String) : Option (String × String) :=
  let airline_code : String :=
    if pyIsAlpha (flightnum.data.take 3) then ⟨flightnum.data.take 3⟩
    else ⟨flightnum.data.take 2⟩
  (airlines.get als airline_code).map fun info => (airline_code, info.name)

/-- The airline-code selection rule exactly as the claim words it: the
leading alphabetic run when that run has length 3, otherwise the
leading two characters of the string. -/
def claim_airline_code (flightnum : String) : String :=
  if (flightnum.data.takeWhile Char.isAlpha).length = 3 then
    ⟨flightnum.data.takeWhile Char.isAlpha⟩
  else ⟨flightnum.data.take 2⟩

/-- A store holding both a three-letter and a two-letter code, to make
the selection rules observably different. -/
def cxStore : Store AirlineRec :=
  airlines.read [exTri, exDuo]

theorem C2_counterexample :
    extract_airline cxStore "ABCD123" ≠
      (airlines.get cxStore (claim_airline_code "ABCD123")).map
        (fun info => (claim_airline_code "ABCD123", info.name)) := by
  decide

/-- The amended airline-code rule: the leading three characters of the
flight number whenever the leading alphabetic run has length at least
3, otherwise the leading two characters. -/
def amended_airline_code (flightnum : String) : String :=
  if 3 ≤ (flightnum.data.takeWhile Char.isAlpha).length then ⟨flightnum.data.take 3⟩
  else ⟨flightnum.data.take 2⟩

theorem take3_code_eq (l : List Char) :
    (if pyIsAlpha (l.take 3) then (⟨l.take 3⟩ : String) else ⟨l.take 2⟩) =
    (if 3 ≤ (l.takeWhile Char.isAlpha).length then (⟨l.take 3⟩ : String) else ⟨l.take 2⟩) := by
  match l with
  | [] => simp [pyIsAlpha]
  | [a] =>
    by_cases ha : a.isAlpha <;>
      simp [pyIsAlpha, ha, List.takeWhile]
  | [a, b] =>
    by_cases ha : a.isAlpha <;> by_cases hb : b.isAlpha <;>
      simp [pyIsAlpha, ha, hb, List.takeWhile]
  | a :: b :: c :: rest =>
    by_cases ha : a.isAlpha <;> by_cases hb : b.isAlpha <;> by_cases hc : c.isAlpha <;>
      simp [pyIsAlpha, ha, hb, hc, List.takeWhile]

/-- C2 amended: `extract_airline` selects as airline code the leading
three characters when the leading alphabetic run has length at least 3
(not exactly 3: a longer run is truncated to its first three
characters), otherwise the leading two characters; the returned name is
the name field of the airline store record under that code. -/
theorem C2_amended_airline_selection (als : Store AirlineRec) (flightnum : String) :
    extract_airline als flightnum =
      (airlines.get als (amended_airline_code flightnum)).map
        (fun info => (amended_airline_code flightnum, info.name)) := by
  unfold extract_airline amended_airline_code
  rw [take3_code_eq flightnum.data]

theorem C2_witness :
    extract_airline cxStore "AB123" = some ("AB", "Duo Air") ∧
    extract_airline cxStore "ABCD1" = some ("ABC", "Tri Air") := by
  constructor
  · rw [C2_amended_airline_selection cxStore "AB123"]
    decide
  · rw [C2_amended_airline_selection cxStore "ABCD1"]
    decide

/-!
Calendar, parsing and timezone model used by `format_time`
(mfr24-atl-converter.py lines 60-83).  Naive datetimes are counts of
seconds; the civil calendar conversions are the standard proleptic
Gregorian algorithms (all division operands are nonnegative on the
domain `strptime` can produce, so Euclidean division coincides with the
truncating division of the reference algorithm).
-/

def isLeap (y : Int) : Bool :=
  (y.emod 4 == 0) && (y.emod 100 != 0 || y.emod 400 == 0)

def daysInMonth (y m : Int) : Int :=
  if m = 2 then (if isLeap y then 29 else 28)
  else if m = 4 ∨ m = 6 ∨ m = 9 ∨ m = 11 then 30
  else 31

/-- Days since 1970-01-01 of a civil date. -/
def civilToDays (y m d : Int) : Int :=
  let y' := if m ≤ 2 then y - 1 else y
  let era := (if 0 ≤ y' then y' else y' - 399).ediv 400
  let yoe := y' - era * 400
  let doy := (153 * (m + (if 2 < m then -3 else 9)) + 2).ediv 5 + d - 1
  let doe := yoe * 365 + yoe.ediv 4 - yoe.ediv 100 + doy
  era * 146097 + doe - 719468

/-- Civil date (year, month, day) of a count of days since 1970-01-01. -/
def daysToCivil (z : Int) : Int × Int × Int :=
  let z' := z + 719468
  let era := (if 0 ≤ z' then z' else z' - 146096).ediv 146097
  let doe := z' - era * 146097
  let yoe := (doe - doe.ediv 1460 + doe.ediv 36524 - doe.ediv 146097).ediv 365
  let y := yoe + era * 400
  let doy := doe - (365 * yoe + yoe.ediv 4 - yoe.ediv 100)
  let mp := (5 * doy + 2).ediv 153
  let d := doy - (153 * mp + 2).ediv 5 + 1
  let m := mp + (if mp < 10 then 3 else -9)
  (if m ≤ 2 then y + 1 else y, m, d)

/-- Value of a string of decimal digits. -/
def digitsVal (l : List Char) : Nat :=
  l.foldl (fun n c => n * 10 + (c.toNat - 48)) 0

/-- A one- or two-digit numeric field, as the `strptime` directives
`%m`, `%d`, `%y`, `%H`, `%M`, `%S` each match. -/
def parseField (l : List Char) : Option Nat :=
  if l ≠ [] ∧ l.length ≤ 2 ∧ l.all Char.isDigit then some (digitsVal l) else none

/-- Model of Python `str.split(sep)` for a one-character separator. -/
def splitOnChar (sep : Char) : List Char → List (List Char)
  | [] => [[]]
  | c :: cs =>
    match splitOnChar sep cs with
    | [] => [[c]]
    | g :: gs => if c = sep then [] :: g :: gs else (c :: g) :: gs

/-- Model of `datetime.strptime(s, '%m/%d/%y %H:%M:%S')` composed with
the conversion of the parsed naive local datetime into a count of
seconds.  Each numeric field is one or two digits; the two-digit year
maps 0-68 to 2000-2068 and 69-99 to 1969-1999 (Python's POSIX rule);
the field ranges are validated exactly as `datetime` construction
does (including the day against the month's length). -/
def strptime_mdyHMS (s : String) : Option Int :=
  match splitOnChar ' ' s.data with
  | [ds, ts] =>
    match splitOnChar '/' ds with
    | [ms, das, ys] =>
      match splitOnChar ':' ts with
      | [hs, mins, secs] => do
        let mo ← parseField ms
        let da ← parseField das
        let yy ← parseField ys
        let h ← parseField hs
        let mi ← parseField mins
        let se ← parseField secs
        let y : Int := if yy ≤ 68 then 2000 + (yy : Int) else 1900 + (yy : Int)
        if 1 ≤ mo ∧ mo ≤ 12 ∧ 1 ≤ da ∧ (da : Int) ≤ daysInMonth y (mo : Int) ∧
            h ≤ 23 ∧ mi ≤ 59 ∧ se ≤ 61 then
          some (civilToDays y (mo : Int) (da : Int) * 86400 +
            (h : Int) * 3600 + (mi : Int) * 60 + (se : Int))
        else none
      | _ => none
    | _ => none
  | _ => none

/-- Model of Python `int()` on the strings this converter feeds it: an
optional sign followed by decimal digits. -/
def pyInt (l : List Char) : Option Int :=
  match l with
  | '-' :: ds => if ds ≠ [] ∧ ds.all Char.isDigit then some (-(digitsVal ds : Int)) else none
  | '+' :: ds => if ds ≠ [] ∧ ds.all Char.isDigit then some ((digitsVal ds : Int)) else none
  | ds => if ds ≠ [] ∧ ds.all Char.isDigit then some ((digitsVal ds : Int)) else none

/-- Model of the duration handling of `format_time` lines 76-79:
`Duration.split(':')`, indexing parts 0, 1 and 2 (fewer than three
parts raises IndexError), `int()` on each, and the total seconds of
`timedelta(seconds, minutes, hours)` in the source's argument order. -/
def parseDuration (s : String) : Option Int :=
  let parts := splitOnChar ':' s.data
  match nth parts 0, nth parts 1, nth parts 2 with
  | some hS, some mS, some sS => do
    let se ← pyInt sS
    let mi ← pyInt mS
    let h ← pyInt hS
    some (se + mi * 60 + h * 3600)
  | _, _, _ => none

/-- Offset rules of one IANA zone: `fromLocal` is the UTC offset (in
seconds) that `utcoffset()` reports for a wall-clock time of the zone
(with the default fold), `fromUtc` the offset `fromutc` applies at a
UTC instant. -/
structure TzRules where
  fromLocal : Int → Int
  fromUtc : Int → Int

/-- The IANA database as an oracle from zone name to rules;
`zoneinfo.ZoneInfo` raises on an unknown name, hence `Option`. -/
abbrev TzDb := String → Option TzRules

def pad2 (n : Int) : String :=
  if n < 10 then "0" ++ toString n else toString n

def pad4 (n : Int) : String :=
  if n < 10 then "000" ++ toString n
  else if n < 100 then "00" ++ toString n
  else if n < 1000 then "0" ++ toString n
  else toString n

/-- `strftime('%Y-%m-%d')` of a naive wall-clock count of seconds. -/
def fmtDate (wall : Int) : String :=
  let t := daysToCivil (wall.ediv 86400)
  pad4 t.1 ++ "-" ++ pad2 t.2.1 ++ "-" ++ pad2 t.2.2

/-- `strftime('%Y-%m-%d %H:%M')` of a naive wall-clock count of seconds. -/
def fmtDateHM (wall : Int) : String :=
  let rem := wall.emod 86400
  fmtDate wall ++ " " ++ pad2 (rem.ediv 3600) ++ ":" ++ pad2 ((rem.emod 3600).ediv 60)

/-- Model of `s.rsplit(':', 1)[0]`: everything before the last colon,
or the whole string when there is none. -/
def pyRsplitColon (s : String) : String :=
  if s.data.contains ':' then
    ⟨((s.data.reverse.dropWhile (fun c => c != ':')).drop 1).reverse⟩
  else s

/-!
The airport reference store (airports.py): rows carry the fourteen
positional fields of `_FIELDNAMES` and are keyed by ICAO code only.
-/

structure AirportRec where
  id : String
  name : String
  city : String
  country : String
  iata : String
  icao : String
  latitude : String
  longitude : String
  altitude : String
  offset : String
  dst : String
  timezone : String
  type : String
  source : String
  deriving DecidableEq

namespace airports

/-- The loop body of `airports.read` (airports.py lines 40-41). -/
def readFrom (st : Store AirportRec) : List AirportRec → Store AirportRec
  | [] => st
  | r :: rs => readFrom (storeInsert r.icao r st) rs

/-- Model of `airports.read`: key every parsed row by its ICAO code. -/
def read (rows : List AirportRec) : Store AirportRec :=
  readFrom (fun _ => none) rows

/-- Model of `airports.get`: index the mapping. -/
def get (st : Store AirportRec) (icao : String) : Option AirportRec :=
  st icao

end airports

theorem obind_eq_some {α β : Type} {x : Option α} {f : α → Option β} {b : β} :
    x >>= f = some b ↔ ∃ a, x = some a ∧ f a = some b := by
  cases x <;> simp

theorem osome_bind {α β : Type} (a : α) (f : α → Option β) :
    ((some a : Option α) >>= f) = f a := rfl

/-- The airport resolution shared verbatim by `format_time` (lines
69-72) and `calculate_distance` (lines 149-152): extract the ICAO codes
from the row's composite From and To names and look both airports up,
departure first. -/
def resolve_airports (aps : Store AirportRec) (row : String → Option String) :
    Option (AirportRec × AirportRec) := do
  let fromS ← row "From"
  let depart_airport ← extract_icao fromS
  let depart_info ← airports.get aps depart_airport
  let toS ← row "To"
  let arrive_airport ← extract_icao toS
  let arrive_info ← airports.get aps arrive_airport
  some (depart_info, arrive_info)

/-- Model of `format_time` (mfr24-atl-converter.py lines 60-83):
resolve both airports from the row's composite From/To names, parse the
departure date and time, attach the origin zone, format the departure
stamp, parse the duration, add it (Python's aware `datetime + timedelta`
is wall-clock addition in the departure zone), convert through UTC into
the destination zone with `astimezone`, and build the arrival stamp
from the computed arrival date and the row's own `Arr time` string with
its seconds dropped. -/
def format_time (tzdb : TzDb) (aps : Store AirportRec) (row : String → Option String) :
    Option (String × String) := do
  let infos ← resolve_airports aps row
  let dateS ← row "Date"
  let depS ← row "Dep time"
  let deptime ← strptime_mdyHMS (dateS ++ " " ++ depS)
  let srcTz ← tzdb infos.1.timezone
  let deptime_atl := fmtDateHM deptime
  let durS ← row "Duration"
  let dur ← parseDuration durS
  let arrtimeSrc := deptime + dur
  let dstTz ← tzdb infos.2.timezone
  let utc := arrtimeSrc - srcTz.fromLocal arrtimeSrc
  let arrtime := utc + dstTz.fromUtc utc
  let arrS ← row "Arr time"
  some (deptime_atl, fmtDate arrtime ++ " " ++ pyRsplitColon arrS)

/-- Modelled from the spec (§4.3 steps 1-3): the computed arrival
instant — the departure instant (departure date and time parsed as a
naive local timestamp, placed in the origin airport's zone) plus the
parsed duration — converted into the destination airport's IANA
timezone, as a wall-clock value. -/
def spec_arrival_wall (tzdb : TzDb) (aps : Store AirportRec) (row : String → Option String) :
    Option Int := do
  let infos ← resolve_airports aps row
  let dateS ← row "Date"
  let depS ← row "Dep time"
  let deptime ← strptime_mdyHMS (dateS ++ " " ++ depS)
  let srcTz ← tzdb infos.1.timezone
  let durS ← row "Duration"
  let dur ← parseDuration durS
  let dstTz ← tzdb infos.2.timezone
  let w := deptime + dur
  let utc := w - srcTz.fromLocal w
  some (utc + dstTz.fromUtc utc)

/-- C1: whenever `format_time` produces a stamp pair, the arrival stamp
is the date of the computed arrival instant — departure instant plus
parsed duration, converted to the destination airport's timezone —
formatted `YYYY-MM-DD`, concatenated with a space and the row's own
`Arr time` string with its seconds field dropped.  The computed arrival
time-of-day never enters the stamp: its time part is a function of the
input string alone. -/
theorem C1_arrival_stamp (tzdb : TzDb) (aps : Store AirportRec)
    (row : String → Option String) (std sta : String)
    (h : format_time tzdb aps row = some (std, sta)) :
    ∃ w arrS, spec_arrival_wall tzdb aps row = some w ∧
      row "Arr time" = some arrS ∧
      sta = fmtDate w ++ " " ++ pyRsplitColon arrS := by
  simp only [format_time, obind_eq_some] at h
  obtain ⟨infos, hInfos, h⟩ := h
  obtain ⟨dateS, hDate, h⟩ := h
  obtain ⟨depS, hDep, h⟩ := h
  obtain ⟨dep, hParse, h⟩ := h
  obtain ⟨srcTz, hSrc, h⟩ := h
  obtain ⟨durS, hDurS, h⟩ := h
  obtain ⟨dur, hDur, h⟩ := h
  obtain ⟨dstTz, hDst, h⟩ := h
  obtain ⟨arrS, hArr, h⟩ := h
  simp only [Option.some.injEq, Prod.mk.injEq] at h
  refine ⟨(dep + dur - srcTz.fromLocal (dep + dur)) +
      dstTz.fromUtc (dep + dur - srcTz.fromLocal (dep + dur)), arrS, ?_, hArr, h.2.symm⟩
  simp only [spec_arrival_wall, hInfos, hDate, hDep, hParse, hSrc, hDurS, hDur, hDst,
    osome_bind]

/-- Example world used by the concrete witnesses: two airports with
fixed-offset zones and one fully populated input row. -/
def exTzDb : TzDb := fun z =>
  if z = "America/New_York" then some ⟨fun _ => -18000, fun _ => -18000⟩
  else if z = "America/Chicago" then some ⟨fun _ => -21600, fun _ => -21600⟩
  else none

def exJFK : AirportRec :=
  ⟨"1", "John F Kennedy Intl", "New York", "US", "JFK", "KJFK", "40.64", "-73.78",
   "13", "-5", "A", "America/New_York", "airport", "OurAirports"⟩

def exORD : AirportRec :=
  ⟨"2", "Chicago Ohare Intl", "Chicago", "US", "ORD", "KORD", "41.98", "-87.9",
   "672", "-6", "A", "America/Chicago", "airport", "OurAirports"⟩

def exAps : Store AirportRec := airports.read [exJFK, exORD]

def exRow : String → Option String := fun k =>
  if k = "Flight number" then some "AB123"
  else if k = "From" then some "New York (JFK/KJFK)"
  else if k = "To" then some "Chicago (ORD/KORD)"
  else if k = "Date" then some "01/15/24"
  else if k = "Dep time" then some "08:00:00"
  else if k = "Arr time" then some "09:30:00"
  else if k = "Duration" then some "2:30:00"
  else if k = "Registration" then some "N123AB"
  else if k = "Aircraft" then some "Boeing 737-800 (B738)"
  else if k = "Seat number" then some "12A"
  else if k = "Seat type" then some "1"
  else if k = "Flight class" then some "1"
  else if k = "Airline" then some "Duo Air (AB/ABAB)"
  else if k = "Note" then some "a note"
  else none

theorem C1_witness :
    ∃ w arrS, spec_arrival_wall exTzDb exAps exRow = some w ∧
      exRow "Arr time" = some arrS ∧
      "2024-01-15 09:30" = fmtDate w ++ " " ++ pyRsplitColon arrS :=
  C1_arrival_stamp exTzDb exAps exRow "2024-01-15 08:00" "2024-01-15 09:30" (by decide)

/-!
Great-circle distance (mfr24-atl-converter.py lines 142-158).  The
floating-point library `great_circle_calculator` is external to the
repository, so it enters the embedding as an abstract interface; its
real-valued instantiation below is the haversine formula the
specification describes.  The coordinate strings of the reference store
are parsed by Python's `float()`, modelled as exact decimal rationals.
-/

/-- Model of Python `float()` on an unsigned decimal literal, as the
exact scaled decimal it denotes: a mantissa together with the number of
fractional digits (the value is mantissa over ten to that power). -/
def parseUnsignedDec (l : List Char) : Option (Nat × Nat) :=
  match splitOnChar '.' l with
  | [ip] =>
    if ip ≠ [] ∧ ip.all Char.isDigit then some (digitsVal ip, 0) else none
  | [ip, fp] =>
    if (ip ≠ [] ∨ fp ≠ []) ∧ ip.all Char.isDigit ∧ fp.all Char.isDigit then
      some (digitsVal ip * 10 ^ fp.length + digitsVal fp, fp.length)
    else none
  | _ => none

/-- Model of Python `float()` on the signed decimal literals stored in
the coordinate columns of airports.dat. -/
def parseDecimal (s : String) : Option (Int × Nat) :=
  match s.data with
  | '-' :: rest => (parseUnsignedDec rest).map fun p => (-(p.1 : Int), p.2)
  | '+' :: rest => (parseUnsignedDec rest).map fun p => ((p.1 : Int), p.2)
  | rest => (parseUnsignedDec rest).map fun p => ((p.1 : Int), p.2)

/-- Interface of the external `great_circle_calculator` library: a
distance function on (longitude, latitude) pairs and the injection of
the parsed decimal coordinates into its number type. -/
structure GreatCircle (F : Type) where
  distance_between_points : F × F → F × F → F
  ofDecimal : Int × Nat → F

/-- Modelled from the spec (§4.3): mean Earth radius in kilometers used
by the external library's haversine distance. -/
noncomputable def radiusKm : ℝ := 6371.009

/-- Degrees to radians. -/
noncomputable def radians (x : ℝ) : ℝ := x * Real.pi / 180

/-- Modelled from the spec (§4.3): the haversine great-circle distance
of the external library on (longitude, latitude) pairs in degrees,
returning kilometers. -/
noncomputable def haversineKm (p q : ℝ × ℝ) : ℝ :=
  let lat1 := radians p.2
  let lat2 := radians q.2
  let dlat := lat2 - lat1
  let dlon := radians q.1 - radians p.1
  let a := Real.sin (dlat / 2) ^ 2 +
    Real.cos lat1 * Real.cos lat2 * Real.sin (dlon / 2) ^ 2
  2 * radiusKm * Real.arcsin (Real.sqrt a)

/-- The real-valued instantiation of the library interface. -/
noncomputable def gcReal : GreatCircle ℝ :=
  ⟨haversineKm, fun p => (p.1 : ℝ) / (10 : ℝ) ^ p.2⟩

/-- Model of `calculate_distance` (lines 142-158): resolve both
airports from the row's From/To names by ICAO code, parse their
latitude and longitude strings, and call the library on the
(longitude, latitude) pairs. -/
def calculate_distance {F : Type} (gc : GreatCircle F) (aps : Store AirportRec)
    (row : String → Option String) : Option F := do
  let infos ← resolve_airports aps row
  let depart_lat ← parseDecimal infos.1.latitude
  let depart_lon ← parseDecimal infos.1.longitude
  let arrive_lat ← parseDecimal infos.2.latitude
  let arrive_lon ← parseDecimal infos.2.longitude
  some (gc.distance_between_points (gc.ofDecimal depart_lon, gc.ofDecimal depart_lat)
    (gc.ofDecimal arrive_lon, gc.ofDecimal arrive_lat))

theorem haversineKm_symm (p q : ℝ × ℝ) : haversineKm p q = haversineKm q p := by
  unfold haversineKm
  have hlat : Real.sin ((radians p.2 - radians q.2) / 2) ^ 2 =
      Real.sin ((radians q.2 - radians p.2) / 2) ^ 2 := by
    rw [show radians p.2 - radians q.2 = -(radians q.2 - radians p.2) from by ring,
      neg_div, Real.sin_neg, neg_sq]
  have hlon : Real.sin ((radians p.1 - radians q.1) / 2) ^ 2 =
      Real.sin ((radians q.1 - radians p.1) / 2) ^ 2 := by
    rw [show radians p.1 - radians q.1 = -(radians q.1 - radians p.1) from by ring,
      neg_div, Real.sin_neg, neg_sq]
  simp only
  rw [hlat, hlon, mul_comm (Real.cos (radians q.2)) (Real.cos (radians p.2))]

theorem haversineKm_self (p : ℝ × ℝ) : haversineKm p p = 0 := by
  unfold haversineKm
  simp [Real.sqrt_zero, Real.arcsin_zero]

/-- C8: `calculate_distance` is symmetric — two rows whose From and To
fields are the same two composite names swapped, resolving to airports
`A` and `B`, yield the same distance — and a row whose From and To
resolve to the same airport record with parseable coordinates yields
distance zero. -/
theorem C8_distance_symm_zero (aps : Store AirportRec)
    (row row' : String → Option String) (f t ca cb : String)
    (A B : AirportRec) (la lo lb lob : Int × Nat)
    (hf : row "From" = some f) (ht : row "To" = some t)
    (hf' : row' "From" = some t) (ht' : row' "To" = some f)
    (haf : extract_icao f = some ca) (hat : extract_icao t = some cb)
    (hA : airports.get aps ca = some A) (hB : airports.get aps cb = some B)
    (hla : parseDecimal A.latitude = some la) (hlo : parseDecimal A.longitude = some lo)
    (hlb : parseDecimal B.latitude = some lb) (hlob : parseDecimal B.longitude = some lob)
    (rowZ : String → Option String) (fz tz : String) (Z : AirportRec) (laz loz : Int × Nat)
    (hzf : rowZ "From" = some fz) (hzt : rowZ "To" = some tz)
    (hif : extract_icao fz = some Z.icao) (hit : extract_icao tz = some Z.icao)
    (hZ : airports.get aps Z.icao = some Z)
    (hlaz : parseDecimal Z.latitude = some laz) (hloz : parseDecimal Z.longitude = some loz) :
    calculate_distance gcReal aps row = calculate_distance gcReal aps row' ∧
    calculate_distance gcReal aps rowZ = some 0 := by
  constructor
  · unfold calculate_distance resolve_airports
    simp only [hf, ht, hf', ht', haf, hat, hA, hB, hla, hlo, hlb, hlob, osome_bind]
    exact congrArg some (haversineKm_symm _ _)
  · unfold calculate_distance resolve_airports
    simp only [hzf, hzt, hif, hit, hZ, hlaz, hloz, osome_bind]
    exact congrArg some (haversineKm_self _)

def exRowSwapped : String → Option String := fun k =>
  if k = "From" then some "Chicago (ORD/KORD)"
  else if k = "To" then some "New York (JFK/KJFK)"
  else none

def exRowSame : String → Option String := fun k =>
  if k = "From" then some "New York (JFK/KJFK)"
  else if k = "To" then some "NYC (JFK/KJFK)"
  else none

theorem C8_witness :
    calculate_distance gcReal exAps exRow = calculate_distance gcReal exAps exRowSwapped ∧
    calculate_distance gcReal exAps exRowSame = some 0 :=
  C8_distance_symm_zero exAps exRow exRowSwapped
    "New York (JFK/KJFK)" "Chicago (ORD/KORD)" "KJFK" "KORD" exJFK exORD
    (4064, 2) (-7378, 2) (4198, 2) (-879, 1)
    (by decide) (by decide) (by decide) (by decide) (by decide) (by decide)
    (by decide) (by decide) (by decide) (by decide) (by decide) (by decide)
    exRowSame "New York (JFK/KJFK)" "NYC (JFK/KJFK)" exJFK (4064, 2) (-7378, 2)
    (by decide) (by decide) (by decide) (by decide) (by decide) (by decide) (by decide)

/-!
The row transformer `convert` (mfr24-atl-converter.py lines 160-202).
An input row is the association list `csv.DictReader` builds from the
input table's header and a data line, read through `alookup`; an output
row is the dict built in the source's insertion order, whose values are
strings except for the floating-point distance; `csv.DictWriter` then
serializes the values in the fixed schema order.
-/

/-- An output cell: every field is a string except the distance, which
stays in the number type of the distance library. -/
inductive Val (F : Type) where
  | str : String → Val F
  | num : F → Val F
  deriving DecidableEq

/-- Lookup in an association list: how a Python dict with these
(unique) keys answers indexing. -/
def alookup {β : Type} : List (String × β) → String → Option β
  | [], _ => none
  | (k', v) :: rest, k => if k' = k then some v else alookup rest k

/-- Model of Python `str.strip()`: drop leading and trailing
whitespace. -/
def pyStrip (l : List Char) : List Char :=
  ((l.dropWhile Char.isWhitespace).reverse.dropWhile Char.isWhitespace).reverse

/-- Model of `extract_aircraft` (lines 101-110): code from the
parenthesized group (failing as `extract_code` does), name from the
text before the first open parenthesis with surrounding whitespace
stripped. -/
def extract_aircraft (aircraft : String) : Option (String × String) := do
  let code ← extract_code aircraft
  some (⟨pyStrip (aircraft.data.takeWhile (fun c => c != '('))⟩, code)

/-- The fixed output schema (lines 195-199). -/
def fieldnames : List String :=
  ["FlightNumber", "OriginCode", "DestinationCode", "DistanceInKm", "STD", "STA",
   "ScheduledDuration", "ATD", "ATA", "ActualDuration", "AirlineCode", "AirlineName",
   "Registration", "EquipmentCode", "EquipmentName", "ManufacturerCode", "ManufacturerName",
   "SeatNumber", "SeatTypeCode", "SeatTypeName", "FlightClassCode", "FlightClassName",
   "OperatingCarrierCode", "OperatingCarrierName", "IgnoreInStatistics", "Remark"]

/-- The identifying fields of the output row (lines 172-174): the
flight number, and the origin and destination codes extracted from the
composite From and To names. -/
def row_ids (row : String → Option String) : Option (String × String × String) := do
  let flightNumber ← row "Flight number"
  let fromS ← row "From"
  let originCode ← extract_code fromS
  let toS ← row "To"
  let destCode ← extract_code toS
  some (flightNumber, originCode, destCode)

/-- The equipment and carrier fields (lines 182-183 and 190):
registration, aircraft name/code, and the operating carrier name/code
obtained by reusing the aircraft extractor on the Airline column. -/
def row_equipment (row : String → Option String) :
    Option (String × (String × String) × (String × String)) := do
  let registration ← row "Registration"
  let aircraftS ← row "Aircraft"
  let equipment ← extract_aircraft aircraftS
  let airlineS ← row "Airline"
  let opCarrier ← extract_aircraft airlineS
  some (registration, equipment, opCarrier)

/-- The seat fields (lines 187-189): seat number, seat type name/code
and flight class name/code. -/
def row_seats (row : String → Option String) :
    Option (String × (String × String) × (String × String)) := do
  let seatNumber ← row "Seat number"
  let seatTypeS ← row "Seat type"
  let seatType ← format_seat_type seatTypeS
  let flightClassS ← row "Flight class"
  let flightClass ← format_seat_class flightClassS
  some (seatNumber, seatType, flightClass)

/-- Model of the per-row body of `convert` (lines 171-193): the output
dict in the source's insertion order, every input access going through
the row, every failing step propagated. -/
def atlRow {F : Type} (gc : GreatCircle F) (tzdb : TzDb)
    (aps : Store AirportRec) (als : Store AirlineRec)
    (row : String → Option String) : Option (List (String × Val F)) := do
  let ids ← row_ids row
  let dist ← calculate_distance gc aps row
  let times ← format_time tzdb aps row
  let durS ← row "Duration"
  let airline ← extract_airline als ids.1
  let re ← row_equipment row
  let sc ← row_seats row
  let note ← row "Note"
  some [("FlightNumber", Val.str ids.1),
    ("OriginCode", Val.str ids.2.1),
    ("DestinationCode", Val.str ids.2.2),
    ("DistanceInKm", Val.num dist),
    ("STD", Val.str times.1),
    ("STA", Val.str times.2),
    ("ScheduledDuration", Val.str (pyRsplitColon durS)),
    ("ATD", Val.str times.1),
    ("ATA", Val.str times.2),
    ("ActualDuration", Val.str (pyRsplitColon durS)),
    ("AirlineCode", Val.str airline.1),
    ("AirlineName", Val.str airline.2),
    ("Registration", Val.str re.1),
    ("EquipmentName", Val.str re.2.1.1),
    ("EquipmentCode", Val.str re.2.1.2),
    ("ManufacturerCode", Val.str ""),
    ("ManufacturerName", Val.str ""),
    ("SeatNumber", Val.str sc.1),
    ("SeatTypeName", Val.str sc.2.1.1),
    ("SeatTypeCode", Val.str sc.2.1.2),
    ("FlightClassName", Val.str sc.2.2.1),
    ("FlightClassCode", Val.str sc.2.2.2),
    ("OperatingCarrierName", Val.str re.2.2.1),
    ("OperatingCarrierCode", Val.str re.2.2.2),
    ("IgnoreInStatistics", Val.str ""),
    ("Remark", Val.str note)]

/-- Model of `csv.DictWriter.writerow` with the fixed `fieldnames`: a
dict holding a key outside the schema raises (`extrasaction` defaults
to raising); otherwise the values are emitted in schema order, an
absent key producing the empty cell its `None` restval is written
as. -/
def dictToRow {F : Type} (d : List (String × Val F)) : Option (List (Val F)) :=
  if d.all (fun p => fieldnames.contains p.1) then
    some (fieldnames.map fun k => (alookup d k).getD (Val.str ""))
  else none

/-- Sequence a fallible transform over a list, preserving order. -/
def mapOpt {α β : Type} (f : α → Option β) : List α → Option (List β)
  | [] => some []
  | a :: as => do
    let b ← f a
    let bs ← mapOpt f as
    some (b :: bs)

/-- Model of `convert` (lines 160-202): transform every parsed input
row in order, then serialize the header row and the transformed rows in
the fixed schema order. -/
def convert {F : Type} (gc : GreatCircle F) (tzdb : TzDb)
    (aps : Store AirportRec) (als : Store AirlineRec)
    (rows : List (List (String × String))) :
    Option (List String × List (List (Val F))) := do
  let ds ← mapOpt (fun r => atlRow gc tzdb aps als (alookup r)) rows
  let out ← mapOpt dictToRow ds
  some (fieldnames, out)

theorem atlRow_shape {F : Type} (gc : GreatCircle F) (tzdb : TzDb)
    (aps : Store AirportRec) (als : Store AirlineRec)
    (row : String → Option String) (d : List (String × Val F))
    (h : atlRow gc tzdb aps als row = some d) :
    ∃ ids dist times durS al re sc note,
      row "Duration" = some durS ∧
      d = [("FlightNumber", Val.str (Prod.fst ids)),
        ("OriginCode", Val.str (Prod.fst (Prod.snd ids))),
        ("DestinationCode", Val.str (Prod.snd (Prod.snd ids))),
        ("DistanceInKm", Val.num dist),
        ("STD", Val.str (Prod.fst times)),
        ("STA", Val.str (Prod.snd times)),
        ("ScheduledDuration", Val.str (pyRsplitColon durS)),
        ("ATD", Val.str (Prod.fst times)),
        ("ATA", Val.str (Prod.snd times)),
        ("ActualDuration", Val.str (pyRsplitColon durS)),
        ("AirlineCode", Val.str (Prod.fst al)),
        ("AirlineName", Val.str (Prod.snd al)),
        ("Registration", Val.str (Prod.fst re)),
        ("EquipmentName", Val.str (Prod.fst (Prod.fst (Prod.snd re)))),
        ("EquipmentCode", Val.str (Prod.snd (Prod.fst (Prod.snd re)))),
        ("ManufacturerCode", Val.str ""),
        ("ManufacturerName", Val.str ""),
        ("SeatNumber", Val.str (Prod.fst sc)),
        ("SeatTypeName", Val.str (Prod.fst (Prod.fst (Prod.snd sc)))),
        ("SeatTypeCode", Val.str (Prod.snd (Prod.fst (Prod.snd sc)))),
        ("FlightClassName", Val.str (Prod.fst (Prod.snd (Prod.snd sc)))),
        ("FlightClassCode", Val.str (Prod.snd (Prod.snd (Prod.snd sc)))),
        ("OperatingCarrierName", Val.str (Prod.fst (Prod.snd (Prod.snd re)))),
        ("OperatingCarrierCode", Val.str (Prod.snd (Prod.snd (Prod.snd re)))),
        ("IgnoreInStatistics", Val.str ""),
        ("Remark", Val.str note)] := by
  simp only [atlRow, obind_eq_some] at h
  obtain ⟨ids, hids, h⟩ := h
  obtain ⟨dist, hdist, h⟩ := h
  obtain ⟨times, htimes, h⟩ := h
  obtain ⟨durS, hdur, h⟩ := h
  obtain ⟨al, hal, h⟩ := h
  obtain ⟨re, hre, h⟩ := h
  obtain ⟨sc, hsc, h⟩ := h
  obtain ⟨note, hnote, h⟩ := h
  injection h with h
  exact ⟨ids, dist, times, durS, al, re, sc, note, hdur, h.symm⟩

/-- C6: in every successfully converted row, the actual-time fields
ATD, ATA and ActualDuration carry exactly the values of STD, STA and
ScheduledDuration, and ScheduledDuration is the input row's Duration
string with everything from its last colon onward removed. -/
theorem C6_actual_mirrors_scheduled {F : Type} (gc : GreatCircle F) (tzdb : TzDb)
    (aps : Store AirportRec) (als : Store AirlineRec)
    (row : String → Option String) (d : List (String × Val F))
    (h : atlRow gc tzdb aps als row = some d) :
    alookup d "ATD" = alookup d "STD" ∧
    alookup d "ATA" = alookup d "STA" ∧
    alookup d "ActualDuration" = alookup d "ScheduledDuration" ∧
    ∃ durS, row "Duration" = some durS ∧
      alookup d "ScheduledDuration" = some (Val.str (pyRsplitColon durS)) := by
  obtain ⟨ids, dist, times, durS, al, re, sc, note, hdur, rfl⟩ :=
    atlRow_shape gc tzdb aps als row d h
  exact ⟨rfl, rfl, rfl, durS, hdur, rfl⟩

theorem atlRow_keys_perm {F : Type} (gc : GreatCircle F) (tzdb : TzDb)
    (aps : Store AirportRec) (als : Store AirlineRec)
    (row : String → Option String) (d : List (String × Val F))
    (h : atlRow gc tzdb aps als row = some d) :
    (d.map Prod.fst).Perm fieldnames := by
  obtain ⟨ids, dist, times, durS, al, re, sc, note, hdur, rfl⟩ :=
    atlRow_shape gc tzdb aps als row d h
  simp only [List.map]
  decide

theorem mapOpt_length {α β : Type} (f : α → Option β) :
    ∀ (l : List α) (out : List β), mapOpt f l = some out → out.length = l.length := by
  intro l
  induction l with
  | nil =>
    intro out h
    injection h with h
    subst h
    rfl
  | cons a as ih =>
    intro out h
    simp only [mapOpt, obind_eq_some] at h
    obtain ⟨b, hb, h⟩ := h
    obtain ⟨bs, hbs, h⟩ := h
    injection h with h
    subst h
    simp [ih bs hbs]

theorem mapOpt_nth {α β : Type} (f : α → Option β) :
    ∀ (l : List α) (out : List β), mapOpt f l = some out →
    ∀ i, i < l.length → ∃ a b, nth l i = some a ∧ f a = some b ∧ nth out i = some b := by
  intro l
  induction l with
  | nil => intro out h i hi; simp at hi
  | cons a as ih =>
    intro out h i hi
    simp only [mapOpt, obind_eq_some] at h
    obtain ⟨b, hb, h⟩ := h
    obtain ⟨bs, hbs, h⟩ := h
    injection h with h
    subst h
    cases i with
    | zero => exact ⟨a, b, rfl, hb, rfl⟩
    | succ i => exact ih bs hbs i (by simpa using hi)

theorem mapOpt_congr {α β : Type} (f : α → Option β) (R : α → α → Prop)
    (hf : ∀ a b, R a b → f a = f b) :
    ∀ {l l' : List α}, List.Forall₂ R l l' → mapOpt f l = mapOpt f l' := by
  intro l l' h
  induction h with
  | nil => rfl
  | cons hab h ih =>
    simp only [mapOpt]
    rw [hf _ _ hab, ih]

theorem alookup_perm {β : Type} :
    ∀ {l₁ l₂ : List (String × β)}, l₁.Perm l₂ → (l₁.map Prod.fst).Nodup →
    ∀ k, alookup l₁ k = alookup l₂ k := by
  intro l₁ l₂ h
  induction h with
  | nil => intro _ k; rfl
  | cons p h ih =>
    intro nd k
    obtain ⟨k', v⟩ := p
    simp only [alookup]
    by_cases hk : k' = k
    · rw [if_pos hk, if_pos hk]
    · rw [if_neg hk, if_neg hk]
      exact ih (by simpa [List.nodup_cons] using nd.of_cons) k
  | swap p q l =>
    intro nd k
    obtain ⟨a, va⟩ := q
    obtain ⟨b, vb⟩ := p
    have hab : a ≠ b := by
      simp only [List.map, List.nodup_cons, List.mem_cons] at nd
      exact fun he => nd.1 (Or.inl he)
    simp only [alookup]
    by_cases ha : a = k
    · rw [if_pos ha, if_neg (fun hb => hab (ha.trans hb.symm))]
      rw [if_pos ha]
    · rw [if_neg ha]
      by_cases hb : b = k
      · rw [if_pos hb, if_pos hb]
      · rw [if_neg hb, if_neg hb, if_neg ha]
  | trans h₁ h₂ ih₁ ih₂ =>
    intro nd k
    rw [ih₁ nd k, ih₂ (((h₁.map Prod.fst).nodup_iff).mp nd) k]

theorem atlRow_perm {F : Type} (gc : GreatCircle F) (tzdb : TzDb)
    (aps : Store AirportRec) (als : Store AirlineRec)
    (r r' : List (String × String)) (hperm : r.Perm r')
    (nd : (r.map Prod.fst).Nodup) :
    atlRow gc tzdb aps als (alookup r) = atlRow gc tzdb aps als (alookup r') := by
  rw [funext (alookup_perm hperm nd)]

/-- C7: when `convert` succeeds, the output has the schema as header,
exactly one serialized row per input row in the same order, every row
dict carrying exactly the 26 schema keys and serialized in the fixed
schema order; and the result is unchanged when every input row's cells
are permuted (the input table's column order is immaterial). -/
theorem C7_row_count_and_schema {F : Type} (gc : GreatCircle F) (tzdb : TzDb)
    (aps : Store AirportRec) (als : Store AirlineRec)
    (rows : List (List (String × String))) (hdr : List String) (out : List (List (Val F)))
    (h : convert gc tzdb aps als rows = some (hdr, out)) :
    hdr = fieldnames ∧
    out.length = rows.length ∧
    (∀ i, i < rows.length → ∃ r d, nth rows i = some r ∧
      atlRow gc tzdb aps als (alookup r) = some d ∧
      (d.map Prod.fst).Perm fieldnames ∧
      nth out i = some (fieldnames.map fun k => (alookup d k).getD (Val.str ""))) ∧
    (∀ rows', List.Forall₂
        (fun r r' : List (String × String) => r.Perm r' ∧ (r.map Prod.fst).Nodup) rows rows' →
      convert gc tzdb aps als rows = convert gc tzdb aps als rows') := by
  simp only [convert, obind_eq_some] at h
  obtain ⟨ds, hds, h⟩ := h
  obtain ⟨out', hout', h⟩ := h
  simp only [Option.some.injEq, Prod.mk.injEq] at h
  obtain ⟨hh, ho⟩ := h
  subst hh
  subst ho
  refine ⟨rfl, ?_, ?_, ?_⟩
  · rw [mapOpt_length _ _ _ hout', mapOpt_length _ _ _ hds]
  · intro i hi
    obtain ⟨r, d, hr, hd, hdi⟩ := mapOpt_nth _ rows ds hds i hi
    have hi' : i < ds.length := by rw [mapOpt_length _ _ _ hds]; exact hi
    obtain ⟨d2, o, hd2, ho2, hoi⟩ := mapOpt_nth dictToRow ds out' hout' i hi'
    rw [hdi] at hd2
    injection hd2 with hd2
    subst hd2
    have hov : o = fieldnames.map fun k => (alookup d k).getD (Val.str "") := by
      unfold dictToRow at ho2
      split at ho2
      · injection ho2 with ho2
        exact ho2.symm
      · exact absurd ho2 (by simp)
    exact ⟨r, d, hr, hd, atlRow_keys_perm gc tzdb aps als _ d hd, hov ▸ hoi⟩
  · intro rows' hperm
    unfold convert
    rw [mapOpt_congr _ _ (fun a b hab => atlRow_perm gc tzdb aps als a b hab.1 hab.2) hperm]

/-- A distance backend over a trivial number type, letting the concrete
witnesses of the transformer evaluate without real arithmetic. -/
def gcU : GreatCircle Unit := ⟨fun _ _ => (), fun _ => ()⟩

/-- A full concrete input row as the association list `csv.DictReader`
would build from the example input table. -/
def exRowList : List (String × String) :=
  [("Flight number", "AB123"), ("Date", "01/15/24"), ("From", "New York (JFK/KJFK)"),
   ("To", "Chicago (ORD/KORD)"), ("Dep time", "08:00:00"), ("Arr time", "09:30:00"),
   ("Duration", "2:30:00"), ("Airline", "Duo Air (AB/ABAB)"),
   ("Aircraft", "Boeing 737-800 (B738)"), ("Registration", "N123AB"),
   ("Seat number", "12A"), ("Seat type", "1"), ("Flight class", "1"), ("Note", "a note")]

/-- The output dict `atlRow` produces from `exRowList`, in insertion
order. -/
def exDict : List (String × Val Unit) :=
  [("FlightNumber", Val.str "AB123"), ("OriginCode", Val.str "JFK"),
   ("DestinationCode", Val.str "ORD"), ("DistanceInKm", Val.num ()),
   ("STD", Val.str "2024-01-15 08:00"), ("STA", Val.str "2024-01-15 09:30"),
   ("ScheduledDuration", Val.str "2:30"), ("ATD", Val.str "2024-01-15 08:00"),
   ("ATA", Val.str "2024-01-15 09:30"), ("ActualDuration", Val.str "2:30"),
   ("AirlineCode", Val.str "AB"), ("AirlineName", Val.str "Duo Air"),
   ("Registration", Val.str "N123AB"), ("EquipmentName", Val.str "Boeing 737-800"),
   ("EquipmentCode", Val.str "B738"), ("ManufacturerCode", Val.str ""),
   ("ManufacturerName", Val.str ""), ("SeatNumber", Val.str "12A"),
   ("SeatTypeName", Val.str "Window"), ("SeatTypeCode", Val.str "W"),
   ("FlightClassName", Val.str "Economy"), ("FlightClassCode", Val.str "Y"),
   ("OperatingCarrierName", Val.str "Duo Air"), ("OperatingCarrierCode", Val.str "AB"),
   ("IgnoreInStatistics", Val.str ""), ("Remark", Val.str "a note")]

/-- The serialized row the writer emits for `exDict`, in schema
order. -/
def exOutRow : List (Val Unit) :=
  [Val.str "AB123", Val.str "JFK", Val.str "ORD", Val.num (),
   Val.str "2024-01-15 08:00", Val.str "2024-01-15 09:30", Val.str "2:30",
   Val.str "2024-01-15 08:00", Val.str "2024-01-15 09:30", Val.str "2:30",
   Val.str "AB", Val.str "Duo Air", Val.str "N123AB", Val.str "B738",
   Val.str "Boeing 737-800", Val.str "", Val.str "", Val.str "12A",
   Val.str "W", Val.str "Window", Val.str "Y", Val.str "Economy",
   Val.str "AB", Val.str "Duo Air", Val.str "", Val.str "a note"]

theorem C6_witness :
    alookup exDict "ATD" = alookup exDict "STD" ∧
    alookup exDict "ATA" = alookup exDict "STA" ∧
    alookup exDict "ActualDuration" = alookup exDict "ScheduledDuration" ∧
    ∃ durS, alookup exRowList "Duration" = some durS ∧
      alookup exDict "ScheduledDuration" = some (Val.str (pyRsplitColon durS)) :=
  C6_actual_mirrors_scheduled gcU exTzDb exAps cxStore (alookup exRowList) exDict (by decide)

theorem C7_witness :
    fieldnames = fieldnames ∧
    ([exOutRow] : List (List (Val Unit))).length = [exRowList].length ∧
    (∀ i, i < [exRowList].length → ∃ r d, nth [exRowList] i = some r ∧
      atlRow gcU exTzDb exAps cxStore (alookup r) = some d ∧
      (d.map Prod.fst).Perm fieldnames ∧
      nth [exOutRow] i = some (fieldnames.map fun k => (alookup d k).getD (Val.str ""))) ∧
    (∀ rows', List.Forall₂
        (fun r r' : List (String × String) => r.Perm r' ∧ (r.map Prod.fst).Nodup)
        [exRowList] rows' →
      convert gcU exTzDb exAps cxStore [exRowList] = convert gcU exTzDb exAps cxStore rows') :=
  C7_row_count_and_schema gcU exTzDb exAps cxStore [exRowList] fieldnames [exOutRow] (by decide)

end MfrAtl
